import Mathlib

/-!
Shallow embedding of the WPILOG streaming parser (`WPILogParser`) and its
record types (`types.ts`).

Modelling conventions:
* `Uint8Array` buffers are `List Nat` (each element a byte value 0..255).
* The asynchronous byte source is the list of chunks its async iterator
  yields, in order; pulling `next()` consumes the head chunk.  When the
  iterator is exhausted, `result.value` is `undefined` and the subsequent
  `concatUint8Arrays`/`new DataView` access throws a `TypeError`; this is
  modelled by the error value `Err.typeError`.
* `DataView` accessor failures (offset out of range) are `Err.rangeError`.
* Thrown `Error(...)` values are modelled by the remaining `Err`
  constructors, each carrying the data interpolated into the message.
* JavaScript numbers are `Nat` where the source only ever produces
  non-negative integral values (all reads here are unsigned little-endian
  decodes of byte values, and `bigint` accumulation of unsigned bytes).
* Fallible methods return `Except Err`; parser state (`buffer`, `cursor`,
  remaining stream chunks) is threaded explicitly.
-/

deriving instance DecidableEq for Except

namespace WPILog

/-- Control-record payload tagged union from `types.ts`
(`StartControlRecordPayload | FinishControlRecordPayload |
SetMetadataControlRecordPayload`). -/
inductive ControlRecordPayload where
  | start (entryId : Nat) (entryName entryType metadata : String)
  | finish (entryId : Nat)
  | set_metadata (entryId : Nat) (metadata : String)
deriving DecidableEq

/-- `BaseRecord` from `types.ts` (`rawPayload` kept as raw bytes). -/
structure BaseRecord where
  entryId : Nat
  timestamp : Nat
  rawPayload : List Nat
deriving DecidableEq

/-- `ControlRecord` from `types.ts`: a `BaseRecord` with `isControl = true`
and a typed control payload. -/
structure ControlRecord where
  entryId : Nat
  timestamp : Nat
  rawPayload : List Nat
  payload : ControlRecordPayload
deriving DecidableEq

/-- `Header` from `types.ts`.  The source decodes `extra` to a string
(UTF-8 with a `String.fromCharCode` fallback); the decoding is external
to the parsing logic, so the raw bytes are kept. -/
structure Header where
  version : Nat
  extra : List Nat
deriving DecidableEq

/-- The failure outcomes of the parser methods. -/
inductive Err where
  /-- A `TypeError` from dereferencing the `undefined` chunk produced by an
  exhausted async iterator inside `readToBuffer`. -/
  | typeError
  /-- A `RangeError` from a `DataView` accessor reading past the buffer. -/
  | rangeError
  /-- `Invalid file. ... Magic: ${magic}` with the six bytes found. -/
  | invalidMagic (found : List Nat)
  /-- `Unsupported WPI Data Log version: ${major}.${minor}. ...` -/
  | unsupportedVersion (major minor : Nat)
  /-- `Invalid version: ${bytes}` -/
  | invalidVersion (bytes : Nat)
  /-- `Invalid variable length size: ${numBytes}` -/
  | invalidVariableLength (numBytes : Nat)
deriving DecidableEq

/-- The mutable state of a `WPILogParser` instance: the internal `buffer`,
the read `cursor`, and the chunks the byte source has yet to yield.
(The `reader` DataView is always a view of the whole `buffer`, so it
carries no extra information and is not modelled separately.) -/
structure PState where
  buffer : List Nat
  cursor : Nat
  chunks : List (List Nat)
deriving DecidableEq

/-- The ASCII bytes of `"WPILOG"`. -/
def wpilogMagic : List Nat := [87, 80, 73, 76, 79, 71]

/-- `readToBuffer(length)`: loops `length` times, each iteration awaiting
one chunk from the stream's async iterator and appending it to `buffer`
(the `buffer.length > 0 ? concat : chunk` ternary in the source is an
allocation shortcut with the same value as appending, since `[] ++ c = c`).
The loop never inspects `result.done` and never compares byte counts: it
counts chunks, not bytes.  When the iterator is exhausted, `result.value`
is `undefined` and the following property access throws a `TypeError`. -/
def readToBuffer : Nat → PState → Except Err PState
  | 0, s => .ok s
  | length + 1, s =>
    match s.chunks with
    | [] => .error .typeError
    | chunk :: rest =>
      readToBuffer length { s with buffer := s.buffer ++ chunk, chunks := rest }

/-- `sliceBuffer(length)`: drops `length` consumed bytes from the front of
the buffer (everything when `length >= buffer.length`) and resets the
cursor to 0; a non-positive `length` is a no-op (early `return`). -/
def sliceBuffer (length : Nat) (s : PState) : PState :=
  if length ≤ 0 then s
  else
    { s with
      buffer := if length ≥ s.buffer.length then [] else s.buffer.drop length
      cursor := 0 }

/-- `readBytes(length)`: returns `buffer.subarray(cursor, cursor + length)`
(which clamps at the buffer end, so the view may be shorter than
`length`) and advances the cursor by the full `length`.  It cannot
fail. -/
def readBytes (length : Nat) (s : PState) : List Nat × PState :=
  ((s.buffer.drop s.cursor).take length, { s with cursor := s.cursor + length })

/-- `readU8()`: `DataView.getUint8` at the cursor, advancing by 1. -/
def readU8 (s : PState) : Except Err (Nat × PState) :=
  match s.buffer.get? s.cursor with
  | some val => .ok (val, { s with cursor := s.cursor + 1 })
  | none => .error .rangeError

/-- `readU16()`: `DataView.getUint16(cursor, true)` — 2 bytes
little-endian — advancing by 2. -/
def readU16 (s : PState) : Except Err (Nat × PState) :=
  match s.buffer.get? s.cursor, s.buffer.get? (s.cursor + 1) with
  | some b0, some b1 => .ok (b0 + 256 * b1, { s with cursor := s.cursor + 2 })
  | _, _ => .error .rangeError

/-- `readU32()`: `DataView.getUint32(cursor, true)` — 4 bytes
little-endian — advancing by 4. -/
def readU32 (s : PState) : Except Err (Nat × PState) :=
  match s.buffer.get? s.cursor, s.buffer.get? (s.cursor + 1),
      s.buffer.get? (s.cursor + 2), s.buffer.get? (s.cursor + 3) with
  | some b0, some b1, some b2, some b3 =>
    .ok (b0 + 256 * b1 + 65536 * b2 + 16777216 * b3,
      { s with cursor := s.cursor + 4 })
  | _, _, _, _ => .error .rangeError

/-- `readVariableLength(numBytes)`: dispatches on the byte count — 1, 2 and
4 via the fixed-width readers, 3 as `b1 | (b2 << 8) | (b3 << 16)`, and any
other count throws `Invalid variable length size`. -/
def readVariableLength (numBytes : Nat) (s : PState) : Except Err (Nat × PState) :=
  match numBytes with
  | 1 => readU8 s
  | 2 => readU16 s
  | 3 => do
    let (b1, s) ← readU8 s
    let (b2, s) ← readU8 s
    let (b3, s) ← readU8 s
    .ok (b1 ||| (b2 <<< 8) ||| (b3 <<< 16), s)
  | 4 => readU32 s
  | n => .error (.invalidVariableLength n)

/-- The loop body of `readVariableLengthBigInt`: `value |= byte << shift`,
`shift += 8`, repeated for the remaining iteration count. -/
def readVariableLengthBigIntGo : Nat → Nat → Nat → PState → Except Err (Nat × PState)
  | 0, value, _, s => .ok (value, s)
  | n + 1, value, shift, s => do
    let (byte, s) ← readU8 s
    readVariableLengthBigIntGo n (value ||| (byte <<< shift)) (shift + 8) s

/-- `readVariableLengthBigInt(numBytes)`: accumulates `numBytes` bytes
little-endian into a `bigint` starting from `value = 0`, `shift = 0`. -/
def readVariableLengthBigInt (numBytes : Nat) (s : PState) : Except Err (Nat × PState) :=
  readVariableLengthBigIntGo numBytes 0 0 s

/-- `parseVersion(bytes)`: splits a version word into
`[bytes >> 8, bytes & 0xff]`, throwing `Invalid version` when either part
exceeds `0xff`. -/
def parseVersion (bytes : Nat) : Except Err (Nat × Nat) :=
  let major := bytes >>> 8
  let minor := bytes &&& 0xff
  if major > 0xff ∨ minor > 0xff then .error (.invalidVersion bytes)
  else .ok (major, minor)

/-- `parseControlRecord(payload, entryId, timestamp)`: the body of this
`async` method is empty in the source, so the returned promise resolves to
`undefined` for every input (despite the declared `Promise<ControlRecord>`
type); modelled as `none`. -/
def parseControlRecord (payload : List Nat) (entryId : Nat) (timestamp : Nat) :
    Option ControlRecord :=
  none

/-- `parseHeader()`: ensures `HEADER_MIN_SIZE = 6 + 2 + 4` bytes, checks the
6-byte magic (the source compares `String.fromCharCode(...magicBytes)`
against `"WPILOG"`, equivalent to comparing the byte lists since bytes are
below 256), checks the version word, reads the 4-byte extra length, and
either reads the extra bytes or compacts the buffer and returns. -/
def parseHeader (s : PState) : Except Err (Header × PState) := do
  let s ← readToBuffer 12 s
  let (magicBytes, s) := readBytes 6 s
  if magicBytes ≠ wpilogMagic then
    .error (.invalidMagic magicBytes)
  else do
    let (version, s) ← readU16 s
    if version ≠ 0x0100 then do
      let (mm : Nat × Nat) ← parseVersion version
      .error (.unsupportedVersion mm.1 mm.2)
    else do
      let (extraLength, s) ← readU32 s
      if extraLength > 0 then do
        let s ← readToBuffer extraLength s
        let (extraBytes, s) := readBytes extraLength s
        .ok ({ version := version, extra := extraBytes }, s)
      else
        .ok ({ version := version, extra := [] }, sliceBuffer s.cursor s)

/-- `parseRecord()`: reads the bitfield byte, extracts the three width
selectors, then reads entry id, payload size, timestamp and payload.

The source's three `this.readToBuffer(...)` calls here are *not* awaited
(unlike those in `parseHeader`): the async body of `readToBuffer` suspends
at its first `await`, before appending anything, so those calls cannot
affect the bytes this invocation reads and are omitted from the model.

`bitField[0]` on an empty view is `undefined`, and JavaScript bitwise
operators coerce `undefined` to 0; `List.headD _ 0` reproduces this.

After reading the bitfield via `readBytes(1)` (which already advanced the
cursor past it) the source advances the cursor by one more byte
(`this.cursor += 1`).  The function body ends without a `return`
statement, so the promise resolves to `undefined` (modelled as `none`)
whether or not the control-record branch runs. -/
def parseRecord (s : PState) : Except Err (Option BaseRecord × PState) := do
  let (bitField, s) := readBytes 1 s
  let entryIdLength := bitField.headD 0 &&& 0b00000011
  let payloadSizeLength := (bitField.headD 0 >>> 2) &&& 0b00000011
  let timestampLength := (bitField.headD 0 >>> 4) &&& 0b00000111
  let s := { s with cursor := s.cursor + 1 }
  let (entryId, s) ← readVariableLength entryIdLength s
  let (payloadSize, s) ← readVariableLength payloadSizeLength s
  let (timestamp, s) ← readVariableLengthBigInt timestampLength s
  let (payloadBytes, s) := readBytes payloadSize s
  let record : Option ControlRecord :=
    if entryId = 0 then parseControlRecord payloadBytes entryId timestamp else none
  .ok (none, s)

/-- A byte source that yields one byte per chunk (the spec's extreme
fragmentation case, under which pulling `n` chunks yields `n` bytes). -/
def singletonChunks (bytes : List Nat) : List (List Nat) :=
  bytes.map (fun b => [b])

/-- A fresh parser state over a byte-per-chunk source: empty buffer,
cursor 0. -/
def initState (bytes : List Nat) : PState :=
  ⟨[], 0, singletonChunks bytes⟩

/-- Specification-side value of a little-endian byte sequence. -/
def leValue : List Nat → Nat
  | [] => 0
  | b :: bs => b + 256 * leValue bs

/-! ## Helper lemmas -/

/-- When at least `n` chunks remain, `readToBuffer n` appends exactly the
next `n` chunks to the buffer and leaves the cursor alone. -/
theorem readToBuffer_ok (n : Nat) (buf : List Nat) (cur : Nat)
    (chunks : List (List Nat)) (h : n ≤ chunks.length) :
    readToBuffer n ⟨buf, cur, chunks⟩ =
      .ok ⟨buf ++ (chunks.take n).flatten, cur, chunks.drop n⟩ := by
  induction n generalizing buf chunks with
  | zero => simp [readToBuffer]
  | succ n ih =>
    cases chunks with
    | nil => simp at h
    | cons c cs =>
      simp only [readToBuffer]
      rw [ih (buf ++ c) cs (by simpa using h)]
      simp [List.append_assoc]

/-- The only error `readToBuffer` can produce is the `TypeError` from an
exhausted iterator. -/
theorem readToBuffer_eq_error (n : Nat) (s : PState) (e : Err)
    (h : readToBuffer n s = .error e) : e = .typeError := by
  induction n generalizing s with
  | zero => simp [readToBuffer] at h
  | succ n ih =>
    rcases s with ⟨buf, cur, chunks⟩
    cases chunks with
    | nil =>
      simp [readToBuffer] at h
      exact h.symm
    | cons c cs => exact ih _ h

theorem length_singletonChunks (bytes : List Nat) :
    (singletonChunks bytes).length = bytes.length := by
  simp [singletonChunks]

theorem flatten_take_singletonChunks (bytes : List Nat) (n : Nat) :
    ((singletonChunks bytes).take n).flatten = bytes.take n := by
  unfold singletonChunks
  induction bytes generalizing n with
  | nil => simp
  | cons b bs ih => cases n <;> simp [ih]

theorem drop_singletonChunks (bytes : List Nat) (n : Nat) :
    (singletonChunks bytes).drop n = singletonChunks (bytes.drop n) := by
  simp [singletonChunks, List.map_drop]

/-- On a byte-per-chunk source, `readToBuffer n` from a fresh state yields
exactly the first `n` bytes in the buffer. -/
theorem readToBuffer_initState (bytes : List Nat) (n : Nat)
    (h : n ≤ bytes.length) :
    readToBuffer n (initState bytes) =
      .ok ⟨bytes.take n, 0, singletonChunks (bytes.drop n)⟩ := by
  unfold initState
  rw [readToBuffer_ok n [] 0 (singletonChunks bytes)
    (by rw [length_singletonChunks]; exact h)]
  rw [flatten_take_singletonChunks, drop_singletonChunks]
  simp

/-- Bitwise-or of three little-endian byte fields equals their weighted
sum (the fields occupy disjoint bit ranges). -/
theorem lor_shift_add (b1 b2 b3 : Nat) (h1 : b1 < 256) (h2 : b2 < 256) :
    b1 ||| (b2 <<< 8) ||| (b3 <<< 16) = b1 + 256 * b2 + 65536 * b3 := by
  have hlt : 2 ^ 8 * b2 + b1 < 2 ^ 16 := by norm_num; omega
  have A : b2 * 2 ^ 8 ||| b1 = 2 ^ 8 * b2 + b1 := by
    rw [Nat.mul_comm]
    exact (@Nat.mul_add_lt_is_or 8 b1 (by norm_num; omega) b2).symm
  have B : b3 * 2 ^ 16 ||| (2 ^ 8 * b2 + b1) = 2 ^ 16 * b3 + (2 ^ 8 * b2 + b1) := by
    rw [Nat.mul_comm]
    exact (@Nat.mul_add_lt_is_or 16 (2 ^ 8 * b2 + b1) hlt b3).symm
  calc b1 ||| (b2 <<< 8) ||| (b3 <<< 16)
      = b1 ||| b2 * 2 ^ 8 ||| b3 * 2 ^ 16 := by
        rw [Nat.shiftLeft_eq, Nat.shiftLeft_eq]
    _ = (b2 * 2 ^ 8 ||| b1) ||| b3 * 2 ^ 16 := by rw [Nat.lor_comm b1]
    _ = (2 ^ 8 * b2 + b1) ||| b3 * 2 ^ 16 := by rw [A]
    _ = b3 * 2 ^ 16 ||| (2 ^ 8 * b2 + b1) := Nat.lor_comm _ _
    _ = 2 ^ 16 * b3 + (2 ^ 8 * b2 + b1) := B
    _ = b1 + 256 * b2 + 65536 * b3 := by norm_num; omega

/-! ## Claim theorems -/

/-- Claim C1: the record framer does *not* implement the stored-value-
minus-one width encoding.  First conjunct: the minimal real-format record
`[0x00, 0x01, 0x00, 0x00]` (bitfield 0 ⇒ every field 1 byte wide under the
claim) is rejected, because the code passes the raw selector 0 to
`readVariableLength`.  Second conjunct: for bitfield `0x16` (selectors
entryId 2, payloadSize 1, timestamp 1; under the claim 3+2+2 = 7 header
bytes after the bitfield) the code consumes only 5 bytes after the
bitfield — 1 skipped byte plus the raw widths 2+1+1 — and then the
2-byte payload, leaving the cursor at 8 where the claim's framing would
still be inside the variable header. -/
theorem parseRecord_raw_widths :
    parseRecord ⟨[0, 1, 0, 0], 0, []⟩ = .error (.invalidVariableLength 0) ∧
    parseRecord ⟨[22, 99, 1, 0, 2, 5, 170, 171], 0, []⟩ =
      .ok (none, ⟨[22, 99, 1, 0, 2, 5, 170, 171], 8, []⟩) := by
  decide

/-- Claim C3: `readToBuffer` counts chunks, not bytes.  First conjunct:
with a source that yields the chunks `[0x07]` and `[]`, `readToBuffer 2`
returns normally although only one unread byte is available.  Second
conjunct: when the source is exhausted it fails with the `TypeError` from
dereferencing the `undefined` chunk, never with a dedicated end-of-stream
error. -/
theorem readToBuffer_pulls_chunks_not_bytes :
    readToBuffer 2 ⟨[], 0, [[7], []]⟩ = .ok ⟨[7], 0, []⟩ ∧
    readToBuffer 1 ⟨[], 0, []⟩ = .error .typeError := by
  decide

/-- Claim C4: for each width in {1, 2, 3, 4}, `readVariableLength` decodes
exactly the little-endian unsigned value of the bytes at the cursor and
advances the cursor by that width. -/
theorem readVariableLength_le (w : Nat) (bytes rest : List Nat)
    (chunks : List (List Nat)) (hw : w = 1 ∨ w = 2 ∨ w = 3 ∨ w = 4)
    (hlen : bytes.length = w) (hb : ∀ b ∈ bytes, b < 256) :
    readVariableLength w ⟨bytes ++ rest, 0, chunks⟩ =
      .ok (leValue bytes, ⟨bytes ++ rest, w, chunks⟩) := by
  rcases hw with rfl | rfl | rfl | rfl
  · rcases bytes with _ | ⟨b0, _ | ⟨b1, t⟩⟩ <;> simp at hlen
    simp [readVariableLength, readU8, leValue]
  · rcases bytes with _ | ⟨b0, _ | ⟨b1, _ | ⟨b2, t⟩⟩⟩ <;> simp at hlen
    simp [readVariableLength, readU16, leValue]
  · rcases bytes with _ | ⟨b0, _ | ⟨b1, _ | ⟨b2, _ | ⟨b3, t⟩⟩⟩⟩ <;> simp at hlen
    have h0 : b0 < 256 := hb b0 (by simp)
    have h1 : b1 < 256 := hb b1 (by simp)
    simp [readVariableLength, readU8, leValue, Bind.bind, Except.bind,
      lor_shift_add b0 b1 b2 h0 h1]
    omega
  · rcases bytes with _ | ⟨b0, _ | ⟨b1, _ | ⟨b2, _ | ⟨b3, _ | ⟨b4, t⟩⟩⟩⟩⟩ <;> simp at hlen
    simp [readVariableLength, readU32, leValue]
    omega

/-- Claim C4 witness: the spec's example bytes `[0x01, 0x02, 0x03]` decode
at width 3 to `0x030201`. -/
theorem readVariableLength_le_witness :
    readVariableLength 3 ⟨[1, 2, 3], 0, []⟩ =
      .ok (leValue [1, 2, 3], ⟨[1, 2, 3], 3, []⟩) ∧
    leValue [1, 2, 3] = 0x030201 :=
  ⟨readVariableLength_le 3 [1, 2, 3] [] []
    (by decide) (by decide) (by decide), by decide⟩

/-- Claim C5: `parseRecord` performs no compaction: after it consumes a
complete record (here the 7-byte record `[0x15, 0x63, 0x05, 0x02, 0x09,
0xAB, 0xCD]`, fully read — the cursor ends at 7 with 0 unread bytes), the
buffer still retains all 7 consumed bytes; `sliceBuffer` is never invoked
on the record path, so the retained byte count is the cumulative bytes
ever read, not the size of the remaining unread bytes. -/
theorem parseRecord_no_compaction :
    parseRecord ⟨[21, 99, 5, 2, 9, 171, 205], 0, []⟩ =
      .ok (none, ⟨[21, 99, 5, 2, 9, 171, 205], 7, []⟩) ∧
    ([21, 99, 5, 2, 9, 171, 205] : List Nat).length = 7 := by
  decide

/-- Claim C7: `readVariableLength` rejects every width outside
{1, 2, 3, 4} with the invalid-width error (in particular width 0, which
the record framer passes for a zero entry-id or payload-size selector),
and `readVariableLengthBigInt` at width 0 returns 0 without touching the
state (a zero timestamp selector is legal and yields timestamp 0). -/
theorem readVariableLength_width_validation (w : Nat) (s : PState)
    (hw : ¬(w = 1 ∨ w = 2 ∨ w = 3 ∨ w = 4)) :
    readVariableLength w s = .error (.invalidVariableLength w) ∧
    readVariableLengthBigInt 0 s = .ok (0, s) := by
  constructor
  · rcases w with _ | _ | _ | _ | _ | n
    · rfl
    · exact absurd (by omega) hw
    · exact absurd (by omega) hw
    · exact absurd (by omega) hw
    · exact absurd (by omega) hw
    · rfl
  · rfl

/-- Claim C7 witness: width 0 is rejected and the bigint decoder returns
0 at width 0. -/
theorem readVariableLength_width_validation_witness :
    readVariableLength 0 ⟨[], 0, []⟩ = .error (.invalidVariableLength 0) ∧
    readVariableLengthBigInt 0 ⟨[], 0, []⟩ = .ok (0, ⟨[], 0, []⟩) :=
  readVariableLength_width_validation 0 ⟨[], 0, []⟩ (by decide)

/-- Claim C8: the control-record interpreter is an empty stub: for *every*
payload (whatever its first byte), entry id and timestamp it resolves to
`undefined` — it neither builds a start/finish/set_metadata payload nor
raises an unknown-control-type error. -/
theorem parseControlRecord_stub (payload : List Nat) (entryId timestamp : Nat) :
    parseControlRecord payload entryId timestamp = none :=
  rfl

/-- Claim C9: for every 16-bit input, `parseVersion` returns the pair
`(value >>> 8, value &&& 0xff)`; its `Invalid version` branch is
unreachable because the high part is below 256 exactly when the input is,
and the masked low part never exceeds 0xff. -/
theorem parseVersion_no_throw (v : Nat) (h : v < 65536) :
    parseVersion v = .ok (v >>> 8, v &&& 0xff) := by
  have h1 : v >>> 8 ≤ 255 := by
    rw [Nat.shiftRight_eq_div_pow]
    have e : (2 : Nat) ^ 8 = 256 := by norm_num
    rw [e]
    omega
  have h2 : v &&& 255 ≤ 255 := @Nat.and_le_right v 255
  simp only [parseVersion]
  rw [if_neg]
  omega

/-- Claim C9 witness: `parseVersion 515 = .ok (2, 3)` (515 = 2·256 + 3). -/
theorem parseVersion_no_throw_witness : parseVersion 515 = .ok (2, 3) :=
  parseVersion_no_throw 515 (by decide)

/-- Claim C10: when fewer than `n` bytes remain between the cursor and the
end of the buffer, `readBytes n` still returns normally (it is a total
function), yielding a view clamped at the buffer end — shorter than `n` —
while advancing the cursor by the full `n`. -/
theorem readBytes_clamps (s : PState) (n : Nat)
    (h : s.buffer.length - s.cursor < n) :
    (readBytes n s).1.length = s.buffer.length - s.cursor ∧
    (readBytes n s).1.length < n ∧
    (readBytes n s).2.cursor = s.cursor + n := by
  refine ⟨?_, ?_, ?_⟩ <;> simp [readBytes] <;> omega

/-- Claim C10 witness: reading 5 bytes at cursor 1 of a 3-byte buffer
yields a 2-byte view and cursor 6. -/
theorem readBytes_clamps_witness :
    (readBytes 5 ⟨[1, 2, 3], 1, []⟩).1.length = 2 ∧
    (readBytes 5 ⟨[1, 2, 3], 1, []⟩).1.length < 5 ∧
    (readBytes 5 ⟨[1, 2, 3], 1, []⟩).2.cursor = 6 :=
  readBytes_clamps ⟨[1, 2, 3], 1, []⟩ 5 (by decide)

/-- Claim C2 counterexample: the version bytes on the wire are `0x02 0x00`,
i.e. the little-endian word 0x0002, so `parseHeader` reports major 0,
minor 2 — *not* major 2, minor 0 as the claim's "in particular" sentence
states.  (The stream delivers one byte per chunk so that `readToBuffer`
actually accumulates the requested bytes; see claim C3.) -/
theorem parseHeader_version_two_zero_cex :
    parseHeader (initState (wpilogMagic ++ [2, 0] ++ [0, 0, 0, 0])) =
      .error (.unsupportedVersion 0 2) ∧
    parseHeader (initState (wpilogMagic ++ [2, 0] ++ [0, 0, 0, 0])) ≠
      .error (.unsupportedVersion 2 0) := by
  decide

/-- Claim C2 (amended): for every 2-byte version field `[lo, hi]` whose
little-endian value `lo + 256·hi` differs from 0x0100, header parsing
(over a byte-per-chunk source with a complete 12-byte fixed header) fails
with an error reporting major = high byte (`hi`) and minor = low byte
(`lo`) of the decoded 16-bit value. -/
theorem parseHeader_reports_decoded_version (lo hi : Nat) (rest : List Nat)
    (hlo : lo < 256) (hhi : hi < 256) (hv : lo + 256 * hi ≠ 256)
    (hr : 4 ≤ rest.length) :
    parseHeader (initState (wpilogMagic ++ [lo, hi] ++ rest)) =
      .error (.unsupportedVersion hi lo) := by
  rcases rest with _ | ⟨r0, _ | ⟨r1, _ | ⟨r2, _ | ⟨r3, tl⟩⟩⟩⟩ <;> simp at hr
  have hrtb : readToBuffer 12
      (initState (87 :: 80 :: 73 :: 76 :: 79 :: 71 :: lo :: hi :: r0 :: r1 :: r2 :: r3 :: tl)) =
      .ok ⟨[87, 80, 73, 76, 79, 71, lo, hi, r0, r1, r2, r3], 0, singletonChunks tl⟩ := by
    rw [readToBuffer_initState _ 12 (by simp)]
    rfl
  have hmaj : (lo + 256 * hi) >>> 8 = hi := by
    rw [Nat.shiftRight_eq_div_pow]
    have e : (2 : Nat) ^ 8 = 256 := by norm_num
    rw [e]
    omega
  have hmin : (lo + 256 * hi) &&& 255 = lo := by
    have e : (255 : Nat) = 2 ^ 8 - 1 := by norm_num
    rw [e, Nat.and_pow_two_sub_one_eq_mod]
    have e2 : (2 : Nat) ^ 8 = 256 := by norm_num
    rw [e2]
    omega
  simp only [wpilogMagic, List.cons_append, List.nil_append]
  simp only [parseHeader, hrtb, Bind.bind, Except.bind, readBytes, readU16,
    List.drop, List.take, List.get?, wpilogMagic]
  norm_num
  rw [if_neg hv]
  simp only [parseVersion, hmaj, hmin]
  rw [if_neg (by omega)]

/-- Claim C2 witness: wire bytes `0x00 0x02` (value 0x0200) are reported
as major 2, minor 0. -/
theorem parseHeader_reports_decoded_version_witness :
    parseHeader (initState (wpilogMagic ++ [0, 2] ++ [0, 0, 0, 0])) =
      .error (.unsupportedVersion 2 0) :=
  parseHeader_reports_decoded_version 0 2 [0, 0, 0, 0]
    (by decide) (by decide) (by decide) (by decide)

/-- Claim C6: over a byte-per-chunk source with at least the 12-byte fixed
header available, header parsing fails with `InvalidMagic` carrying
exactly the six bytes found whenever those bytes differ from `"WPILOG"`,
and never produces a magic error when they equal `"WPILOG"` (whatever
else happens downstream: version error, truncated extra, or success). -/
theorem parseHeader_magic_check (bytes : List Nat) (h12 : 12 ≤ bytes.length) :
    (bytes.take 6 ≠ wpilogMagic →
      parseHeader (initState bytes) = .error (.invalidMagic (bytes.take 6))) ∧
    (bytes.take 6 = wpilogMagic →
      ∀ found, parseHeader (initState bytes) ≠ .error (.invalidMagic found)) := by
  rcases bytes with _ | ⟨b0, _ | ⟨b1, _ | ⟨b2, _ | ⟨b3, _ | ⟨b4, _ | ⟨b5, _ | ⟨b6, _ | ⟨b7, _ |
    ⟨b8, _ | ⟨b9, _ | ⟨b10, _ | ⟨b11, tl⟩⟩⟩⟩⟩⟩⟩⟩⟩⟩⟩⟩ <;> simp at h12
  have hrtb : readToBuffer 12
      (initState (b0 :: b1 :: b2 :: b3 :: b4 :: b5 :: b6 :: b7 :: b8 :: b9 :: b10 :: b11 :: tl)) =
      .ok ⟨[b0, b1, b2, b3, b4, b5, b6, b7, b8, b9, b10, b11], 0, singletonChunks tl⟩ := by
    rw [readToBuffer_initState _ 12 (by simp)]
    rfl
  constructor
  · intro hne
    have hne' : [b0, b1, b2, b3, b4, b5] ≠ wpilogMagic := by simpa using hne
    simp only [parseHeader, hrtb, Bind.bind, Except.bind, readBytes, List.drop, List.take]
    rw [if_pos hne']
  · intro heq found
    simp [wpilogMagic] at heq
    obtain ⟨rfl, rfl, rfl, rfl, rfl, rfl⟩ := heq
    simp only [parseHeader, hrtb, Bind.bind, Except.bind, readBytes, readU16, readU32,
      List.drop, List.take, List.get?]
    norm_num
    rw [if_pos (show ([87, 80, 73, 76, 79, 71] : List Nat) = wpilogMagic by rfl)]
    by_cases hv : b6 + 256 * b7 = 256
    · rw [if_pos hv]
      split
      · split
        · next err heqv =>
            have := readToBuffer_eq_error _ _ _ heqv
            simp_all
        · simp
      · simp
    · rw [if_neg hv]
      simp only [parseVersion]
      split
      · next err heqv =>
          split at heqv
          · injection heqv with h
            subst h
            simp
          · exact absurd heqv (by simp)
      · simp

/-- Claim C6 witness: the spec's example stream
`"WPILOX" 00 01 00 00 00 00` fails with a magic error reporting the six
bytes found (`"WPILOX"`). -/
theorem parseHeader_magic_check_witness :
    parseHeader (initState [87, 80, 73, 76, 79, 88, 0, 1, 0, 0, 0, 0]) =
      .error (.invalidMagic [87, 80, 73, 76, 79, 88]) :=
  (parseHeader_magic_check [87, 80, 73, 76, 79, 88, 0, 1, 0, 0, 0, 0]
    (by decide)).1 (by decide)

end WPILog
